import Mathlib

/-!
Shallow embedding of the `logx` package (module-scoped logging façade over
slog): the options builder (`options.go`) and the logger registry plus the
context-extraction emission path (`logx.go`).

Modelling conventions:
- Go `map[string]T` and `sync.Map` are both modelled as association lists
  with overwrite-on-store semantics (`mapStoreKV` / `mapLoadKV`); each single
  `Load`/`Store` operation is atomic, matching `sync.Map`.
- Pointer identity of `*Logx` handles is modelled by a fresh numeric `id`
  drawn from a counter in the registry state.
- `io.Writer` values are modelled by the `Writer` type; a Go `nil` writer
  is modelled as `Option.none` at the `WithOutput` boundary.
- `slog.Level` is an integer (Debug = -4, Info = 0, Warn = 4, Error = 8).
- The embedded `slog.Logger` of a `Logx` is modelled by the configuration
  that `configLogger` wires into it (level, addSource, output, bound
  attributes); invoking one of its `...Context` methods is modelled by
  `slogEmit`, which records the exact call handed to the slog backend.
-/

namespace logx

/-- Association-list load, modelling both Go map indexing and `sync.Map.Load`. -/
def mapLoadKV {α : Type} : List (String × α) → String → Option α
  | [], _ => none
  | (k', v') :: rest, k => if k' = k then some v' else mapLoadKV rest k

/-- Association-list store with overwrite, modelling both Go map assignment
and `sync.Map.Store`. -/
def mapStoreKV {α : Type} : List (String × α) → String → α → List (String × α)
  | [], k, v => [(k, v)]
  | (k', v') :: rest, k, v =>
      if k' = k then (k, v) :: rest else (k', v') :: mapStoreKV rest k v

/-- The carrier of `context.Context` values; extractors only consume it
through arbitrary functions, so the concrete carrier is immaterial. -/
abbrev Context := List (String × String)

/-- ContextExtractor is a function type that extracts string values from
context (`options.go`). -/
abbrev ContextExtractor := Context → String

/-- Output sinks standing for `io.Writer` values: the process standard
output, or any other distinct sink. -/
inductive Writer : Type
  | stdout : Writer
  | sink : Nat → Writer
deriving DecidableEq

/-- slog.LevelDebug. -/
def LevelDebug : Int := -4

/-- slog.LevelInfo. -/
def LevelInfo : Int := 0

/-- slog.LevelWarn. -/
def LevelWarn : Int := 4

/-- slog.LevelError. -/
def LevelError : Int := 8

/-- One element of a variadic `...any` argument list handed to slog:
either a `slog.String(key, val)` attribute, or any other caller-supplied
value (kept opaque). -/
inductive LogArg : Type
  | strAttr : String → String → LogArg
  | raw : Nat → LogArg
deriving DecidableEq

/-- Options defines the configuration options for a logger instance
(`options.go`). -/
structure Options : Type where
  level : Int
  addSource : Bool
  output : Writer
  contextExtractors : List (String × ContextExtractor)

/-- OptionsFunc is a function type for modifying Options; the Go functions
mutate through a pointer, modelled functionally. -/
abbrev OptionsFunc := Options → Options

/-- defaultOptions returns a new Options instance with default values
(`options.go`, lines 25-32). -/
def defaultOptions : Options :=
  { level := LevelInfo
    addSource := true
    output := Writer.stdout
    contextExtractors := [] }

/-- WithLevel sets the logging level for the logger. -/
def WithLevel (level : Int) : OptionsFunc :=
  fun o => { o with level := level }

/-- WithAddSource enables or disables source code location in log entries. -/
def WithAddSource (addSource : Bool) : OptionsFunc :=
  fun o => { o with addSource := addSource }

/-- WithOutput sets the output writer for the logger; a Go `nil` writer is
`none` and is replaced by stdout (`options.go`, lines 50-58). -/
def WithOutput (w : Option Writer) : OptionsFunc :=
  fun o =>
    match w with
    | none => { o with output := Writer.stdout }
    | some w' => { o with output := w' }

/-- WithContextExtractor adds a context extractor function for the specified
key: `o.contextExtractors[key] = extractor` (`options.go`, lines 62-66). -/
def WithContextExtractor (key : String) (extractor : ContextExtractor) : OptionsFunc :=
  fun o =>
    { o with contextExtractors := mapStoreKV o.contextExtractors key extractor }

/-- NewOptions creates a new Options instance with the provided option
functions applied, starting from `defaultOptions` (`options.go`, lines 69-75). -/
def NewOptions (options : List OptionsFunc) : Options :=
  options.foldl (fun opts option => option opts) defaultOptions

/-- Logx represents a logger instance for a specific module. The `id` field
models Go pointer identity; `level`, `addSource`, `output` and `boundAttrs`
model the state of the embedded `slog.Logger` and its JSON handler as wired
by `configLogger`. -/
structure Logx : Type where
  id : Nat
  moduleName : String
  level : Int
  addSource : Bool
  output : Writer
  boundAttrs : List LogArg
  contextExtractors : List (String × ContextExtractor)

/-- defaultModuleName is the name used when no specific module name is
provided. -/
def defaultModuleName : String := "default"

/-- getModuleName returns the module name or default if empty
(`logx.go`, lines 22-27). -/
def getModuleName (name : String) : String :=
  if name = "" then defaultModuleName else name

/-- configLogger wires the options (defaulted when nil) into the logger:
handler level, addSource flag, output sink, the extractor set, and the
permanent `module=<name>` attribute added by `logger.Logger.With`
(`logx.go`, lines 95-108). -/
def configLogger (logger : Logx) (options : Option Options) : Logx :=
  let opts :=
    match options with
    | none => defaultOptions
    | some o => o
  { logger with
    level := opts.level
    addSource := opts.addSource
    output := opts.output
    contextExtractors := opts.contextExtractors
    boundAttrs := [LogArg.strAttr "module" logger.moduleName] }

/-- newLogx creates a new logger instance for the specified module with given
options (`logx.go`, lines 43-49); `idv` models the freshly allocated pointer. -/
def newLogx (idv : Nat) (moduleName : String) (options : Option Options) : Logx :=
  configLogger
    { id := idv
      moduleName := moduleName
      level := 0
      addSource := false
      output := Writer.stdout
      boundAttrs := []
      contextExtractors := [] }
    options

/-- The process-wide registry state: the `moduleLoggers` sync.Map plus the
allocation counter that mints fresh handle identities. -/
structure RegState : Type where
  loggers : List (String × Logx)
  nextId : Nat

/-- The registry state at process start: `moduleLoggers` empty. -/
def initialRegState : RegState :=
  { loggers := [], nextId := 0 }

/-- The `moduleLoggers.Load(moduleName)` step of `Register`
(`logx.go`, line 34); `m` is already normalized. -/
def registerLoad (m : String) (s : RegState) : Option Logx :=
  mapLoadKV s.loggers m

/-- The remainder of `Register` after its Load returned `r`: on a miss,
construct via `newLogx` and `moduleLoggers.Store` the result
(`logx.go`, lines 35-39). -/
def registerResume (m : String) (options : Option Options) (r : Option Logx)
    (s : RegState) : Logx × RegState :=
  match r with
  | some l => (l, s)
  | none =>
      let l := newLogx s.nextId m options
      (l, { loggers := mapStoreKV s.loggers m l, nextId := s.nextId + 1 })

/-- Register creates and registers a new logger instance for the specified
module; if one already exists it returns the existing instance
(`logx.go`, lines 32-40). Sequential composition of its Load step and the
rest. -/
def Register (moduleName : String) (options : Option Options) (s : RegState) :
    Logx × RegState :=
  let m := getModuleName moduleName
  registerResume m options (registerLoad m s) s

/-- GetLogger retrieves the logger instance for the specified module:
a pure `Load`, returning the (handle?, state) pair — the state component
records that only `moduleLoggers.Load` is performed (`logx.go`, lines 53-59). -/
def GetLogger (moduleName : String) (s : RegState) : Option Logx × RegState :=
  let m := getModuleName moduleName
  match mapLoadKV s.loggers m with
  | some l => (some l, s)
  | none => (none, s)

/-- Default returns the default logger instance, creating one with default
options when absent (`logx.go`, lines 63-69). -/
def Default (s : RegState) : Logx × RegState :=
  match (GetLogger defaultModuleName s).1 with
  | none => Register "" none s
  | some l => (l, s)

/-- setValueFromContext runs each extractor on the context and appends
`slog.String(key, v)` to the argument list, one per loop iteration
(`logx.go`, lines 110-116). -/
def setValueFromContext (ctx : Context) :
    List (String × ContextExtractor) → List LogArg → List LogArg
  | [], args => args
  | (key, extractor) :: rest, args =>
      setValueFromContext ctx rest (args ++ [LogArg.strAttr key (extractor ctx)])

/-- The call handed to the embedded slog backend by one `...Context`
invocation: severity, message, the logger's bound attributes (the `module`
field), the full variadic argument list, and the handler configuration it
will format and write with. -/
structure BackendCall : Type where
  level : Int
  msg : String
  boundAttrs : List LogArg
  args : List LogArg
  addSource : Bool
  output : Writer

/-- slogEmit models `c.Logger.<Level>Context(ctx, msg, args...)`: the record
of what the embedded slog.Logger is invoked with. -/
def slogEmit (c : Logx) (lvl : Int) (msg : String) (args : List LogArg) :
    BackendCall :=
  { level := lvl
    msg := msg
    boundAttrs := c.boundAttrs
    args := args
    addSource := c.addSource
    output := c.output }

/-- InfoContext logs a message at Info level with context-extracted values
(`logx.go`, lines 72-75). -/
def Logx.InfoContext (c : Logx) (ctx : Context) (msg : String)
    (args : List LogArg) : BackendCall :=
  slogEmit c LevelInfo msg (setValueFromContext ctx c.contextExtractors args)

/-- DebugContext logs a message at Debug level with context-extracted values
(`logx.go`, lines 78-81). -/
def Logx.DebugContext (c : Logx) (ctx : Context) (msg : String)
    (args : List LogArg) : BackendCall :=
  slogEmit c LevelDebug msg (setValueFromContext ctx c.contextExtractors args)

/-- ErrorContext logs a message at Error level with context-extracted values
(`logx.go`, lines 84-87). -/
def Logx.ErrorContext (c : Logx) (ctx : Context) (msg : String)
    (args : List LogArg) : BackendCall :=
  slogEmit c LevelError msg (setValueFromContext ctx c.contextExtractors args)

/-- WarnContext logs a message at Warn level with context-extracted values
(`logx.go`, lines 90-93). -/
def Logx.WarnContext (c : Logx) (ctx : Context) (msg : String)
    (args : List LogArg) : BackendCall :=
  slogEmit c LevelWarn msg (setValueFromContext ctx c.contextExtractors args)

/-! Helper lemmas about the map model shared by the registry and the
extractor map. -/

theorem mapLoadKV_mapStoreKV_self {α : Type} :
    ∀ (xs : List (String × α)) (k : String) (v : α),
      mapLoadKV (mapStoreKV xs k v) k = some v
  | [], k, v => by simp [mapStoreKV, mapLoadKV]
  | (k', v') :: rest, k, v => by
      by_cases h : k' = k
      · simp [mapStoreKV, h, mapLoadKV]
      · simp [mapStoreKV, h, mapLoadKV, mapLoadKV_mapStoreKV_self rest k v]

theorem mapLoadKV_mapStoreKV_ne {α : Type} :
    ∀ (xs : List (String × α)) (k k2 : String) (v : α), k2 ≠ k →
      mapLoadKV (mapStoreKV xs k v) k2 = mapLoadKV xs k2
  | [], k, k2, v, h => by simp [mapStoreKV, mapLoadKV, Ne.symm h]
  | (k', v') :: rest, k, k2, v, h => by
      by_cases hk : k' = k
      · subst hk
        simp [mapStoreKV, mapLoadKV, Ne.symm h]
      · by_cases hk2 : k' = k2
        · simp [mapStoreKV, hk, mapLoadKV, hk2, h]
        · simp [mapStoreKV, hk, mapLoadKV, hk2,
            mapLoadKV_mapStoreKV_ne rest k k2 v h]

theorem mapLoadKV_mem {α : Type} :
    ∀ (xs : List (String × α)) (k : String) (v : α),
      mapLoadKV xs k = some v → (k, v) ∈ xs
  | [], k, v => by simp [mapLoadKV]
  | (k', v') :: rest, k, v => by
      by_cases h : k' = k
      · subst h
        intro hv
        have hv' : v' = v := by simpa [mapLoadKV] using hv
        subst hv'
        exact List.mem_cons_self _ _
      · intro hv
        have hv' : mapLoadKV rest k = some v := by simpa [mapLoadKV, h] using hv
        exact List.mem_cons_of_mem _ (mapLoadKV_mem rest k v hv')

theorem mem_mapStoreKV {α : Type} :
    ∀ (xs : List (String × α)) (k : String) (v : α) (p : String × α),
      p ∈ mapStoreKV xs k v → p = (k, v) ∨ p ∈ xs
  | [], k, v, p => by simp [mapStoreKV]
  | (k', v') :: rest, k, v, p => by
      by_cases h : k' = k
      · subst h
        intro hp
        rcases (List.mem_cons).1 (by simpa [mapStoreKV] using hp) with hp | hp
        · exact Or.inl hp
        · exact Or.inr (List.mem_cons_of_mem _ hp)
      · intro hp
        rcases (List.mem_cons).1 (by simpa [mapStoreKV, h] using hp) with hp | hp
        · exact Or.inr (by simp [hp])
        · rcases mem_mapStoreKV rest k v p hp with hp' | hp'
          · exact Or.inl hp'
          · exact Or.inr (List.mem_cons_of_mem _ hp')

theorem setValueFromContext_eq (ctx : Context) :
    ∀ (ce : List (String × ContextExtractor)) (args : List LogArg),
      setValueFromContext ctx ce args =
        args ++ ce.map (fun p => LogArg.strAttr p.1 (p.2 ctx))
  | [], args => by simp [setValueFromContext]
  | (key, extractor) :: rest, args => by
      simp [setValueFromContext, setValueFromContext_eq ctx rest]

/-- Registry invariant: every stored handle hangs under the key equal to its
module name, and no stored key is empty. It holds at process start and every
operation preserves it. -/
def keysMatch (s : RegState) : Prop :=
  ∀ p ∈ s.loggers, p.2.moduleName = p.1 ∧ p.1 ≠ ""

/-! Interleaved execution of two concurrent `Register("m", nil)` callers on
the empty registry, in which both callers execute the `moduleLoggers.Load`
step (each atomic on its own) before either executes the construct-and-Store
remainder. `"m"` is already its own normalized module name. -/

/-- First caller's resume: its Load on the empty registry missed, so it
constructs handle id 0 and stores it. -/
def raceStep1 : Logx × RegState :=
  registerResume "m" none (registerLoad "m" initialRegState) initialRegState

/-- Second caller's resume: its Load also ran against the empty registry
(before the first caller's Store), so it too missed; it constructs handle
id 1 and its Store overwrites the first caller's entry. -/
def raceStep2 : Logx × RegState :=
  registerResume "m" none (registerLoad "m" initialRegState) raceStep1.2

/-- C1: calling `Register(m, o1)` and then `Register(m, o2)` sequentially
returns the identical handle both times; the second call ignores `o2`
entirely and leaves the registry state untouched, so the handle's
configuration stays the one established by the first registration. -/
theorem register_first_wins (m : String) (o1 o2 : Option Options) (s : RegState) :
    (Register m o2 (Register m o1 s).2).1 = (Register m o1 s).1 ∧
    (Register m o2 (Register m o1 s).2).2 = (Register m o1 s).2 := by
  cases h : mapLoadKV s.loggers (getModuleName m) with
  | some l => simp [Register, registerLoad, registerResume, h]
  | none => simp [Register, registerLoad, registerResume, h,
      mapLoadKV_mapStoreKV_self]

/-- C2 evidence: `Register` performs a non-atomic Load-then-Store, so under
the interleaving in which both callers Load before either Stores, the two
callers return distinct handles (ids 0 and 1), and the registry thereafter
serves the second handle — the first caller permanently holds a handle that
differs from the one every later lookup sees. This refutes the claimed
atomic get-or-create / at-most-one-visible-handle semantics. -/
theorem register_race_two_visible_handles :
    raceStep1.1.id = 0 ∧
    raceStep2.1.id = 1 ∧
    raceStep1.1.id ≠ raceStep2.1.id ∧
    (GetLogger "m" raceStep2.2).1.map Logx.id = some raceStep2.1.id ∧
    (GetLogger "m" raceStep2.2).1.map Logx.id ≠ some raceStep1.1.id := by
  refine ⟨rfl, rfl, by decide, rfl, by decide⟩

/-- C3: every `...Context` emission on a handle built by `newLogx` runs each
registered extractor on the supplied context, appends each result as
`slog.String(key, value)` after the caller's arguments, and hands the
message plus combined argument list to the backend at the corresponding
severity, with the permanent `module` attribute bound to the record; the
handle's extractor set is exactly the one from its (defaulted) options. -/
theorem emission_runs_extractors (idv : Nat) (m : String) (o : Option Options)
    (ctx : Context) (msg : String) (args : List LogArg) :
    (newLogx idv m o).contextExtractors =
      (o.getD defaultOptions).contextExtractors ∧
    ((newLogx idv m o).InfoContext ctx msg args).level = LevelInfo ∧
    ((newLogx idv m o).InfoContext ctx msg args).msg = msg ∧
    ((newLogx idv m o).InfoContext ctx msg args).args =
      args ++ (newLogx idv m o).contextExtractors.map
        (fun p => LogArg.strAttr p.1 (p.2 ctx)) ∧
    LogArg.strAttr "module" m ∈ ((newLogx idv m o).InfoContext ctx msg args).boundAttrs ∧
    ((newLogx idv m o).DebugContext ctx msg args).level = LevelDebug ∧
    ((newLogx idv m o).DebugContext ctx msg args).msg = msg ∧
    ((newLogx idv m o).DebugContext ctx msg args).args =
      args ++ (newLogx idv m o).contextExtractors.map
        (fun p => LogArg.strAttr p.1 (p.2 ctx)) ∧
    LogArg.strAttr "module" m ∈ ((newLogx idv m o).DebugContext ctx msg args).boundAttrs ∧
    ((newLogx idv m o).WarnContext ctx msg args).level = LevelWarn ∧
    ((newLogx idv m o).WarnContext ctx msg args).msg = msg ∧
    ((newLogx idv m o).WarnContext ctx msg args).args =
      args ++ (newLogx idv m o).contextExtractors.map
        (fun p => LogArg.strAttr p.1 (p.2 ctx)) ∧
    LogArg.strAttr "module" m ∈ ((newLogx idv m o).WarnContext ctx msg args).boundAttrs ∧
    ((newLogx idv m o).ErrorContext ctx msg args).level = LevelError ∧
    ((newLogx idv m o).ErrorContext ctx msg args).msg = msg ∧
    ((newLogx idv m o).ErrorContext ctx msg args).args =
      args ++ (newLogx idv m o).contextExtractors.map
        (fun p => LogArg.strAttr p.1 (p.2 ctx)) ∧
    LogArg.strAttr "module" m ∈ ((newLogx idv m o).ErrorContext ctx msg args).boundAttrs := by
  cases o with
  | none =>
      simp [Logx.InfoContext, Logx.DebugContext, Logx.WarnContext,
        Logx.ErrorContext, slogEmit, setValueFromContext_eq, newLogx,
        configLogger, defaultOptions]
  | some oo =>
      simp [Logx.InfoContext, Logx.DebugContext, Logx.WarnContext,
        Logx.ErrorContext, slogEmit, setValueFromContext_eq, newLogx,
        configLogger]

/-- C10: for every handle (however configured) and every emission method,
the argument list handed to the backend is exactly the caller's arguments,
in their original order and none dropped, followed by the extractor-derived
attributes. -/
theorem emission_appends_extracted_after_args (c : Logx) (ctx : Context)
    (msg : String) (args : List LogArg) :
    (c.InfoContext ctx msg args).args =
      args ++ c.contextExtractors.map (fun p => LogArg.strAttr p.1 (p.2 ctx)) ∧
    (c.DebugContext ctx msg args).args =
      args ++ c.contextExtractors.map (fun p => LogArg.strAttr p.1 (p.2 ctx)) ∧
    (c.WarnContext ctx msg args).args =
      args ++ c.contextExtractors.map (fun p => LogArg.strAttr p.1 (p.2 ctx)) ∧
    (c.ErrorContext ctx msg args).args =
      args ++ c.contextExtractors.map (fun p => LogArg.strAttr p.1 (p.2 ctx)) := by
  simp [Logx.InfoContext, Logx.DebugContext, Logx.WarnContext,
    Logx.ErrorContext, slogEmit, setValueFromContext_eq]

/-- C4: `Register("", o)` and `Register("default", o)` are the same call on
any registry state; on a well-formed registry both resolve to the single
handle named "default", and `Register` only ever returns and stores handles
with non-empty module names, preserving well-formedness. -/
theorem register_normalizes_empty_name (o : Option Options) (s : RegState)
    (m : String) (h : keysMatch s) :
    Register "" o s = Register "default" o s ∧
    (Register "" o s).1.moduleName = "default" ∧
    (Register m o s).1.moduleName = getModuleName m ∧
    (Register m o s).1.moduleName ≠ "" ∧
    keysMatch (Register m o s).2 := by
  have hnorm : ∀ m' : String, getModuleName m' ≠ "" := by
    intro m'
    by_cases hm : m' = "" <;> simp [getModuleName, hm, defaultModuleName]
  have hname : ∀ m' : String, (Register m' o s).1.moduleName = getModuleName m' := by
    intro m'
    cases hl : mapLoadKV s.loggers (getModuleName m') with
    | some l =>
        have hml := (h _ (mapLoadKV_mem _ _ _ hl)).1
        simp at hml
        simp [Register, registerLoad, registerResume, hl, hml]
    | none =>
        simp [Register, registerLoad, registerResume, hl, newLogx, configLogger]
  refine ⟨?_, ?_, hname m, ?_, ?_⟩
  · have : getModuleName "" = getModuleName "default" := by
      simp [getModuleName, defaultModuleName]
    simp only [Register, this]
  · have := hname ""
    simpa [getModuleName, defaultModuleName] using this
  · rw [hname m]; exact hnorm m
  · cases hl : mapLoadKV s.loggers (getModuleName m) with
    | some l => simpa [Register, registerLoad, registerResume, hl] using h
    | none =>
        intro p hp
        have hp' : p ∈ mapStoreKV s.loggers (getModuleName m)
            (newLogx s.nextId (getModuleName m) o) := by
          simpa [Register, registerLoad, registerResume, hl] using hp
        rcases mem_mapStoreKV _ _ _ _ hp' with hpe | hpm
        · subst hpe
          refine ⟨by simp [newLogx, configLogger], hnorm m⟩
        · exact h p hpm

/-- C4 witness: the theorem applied at the empty registry with module
name "x" and nil options. -/
theorem register_normalizes_empty_name_witness :
    keysMatch initialRegState ∧
    (Register "" none initialRegState = Register "default" none initialRegState ∧
     (Register "" none initialRegState).1.moduleName = "default" ∧
     (Register "x" none initialRegState).1.moduleName = getModuleName "x" ∧
     (Register "x" none initialRegState).1.moduleName ≠ "" ∧
     keysMatch (Register "x" none initialRegState).2) := by
  have hk : keysMatch initialRegState := by
    intro p hp
    simp [initialRegState] at hp
  exact ⟨hk, register_normalizes_empty_name none initialRegState "x" hk⟩

/-- C5: `Default()` is a lazy singleton: when no "default" handle exists it
is exactly `Register("", nil)`, whose handle carries the full default
options (level Info, addSource on, stdout output, no extractors); and on any
state, a second `Default()` returns the same instance as the first. -/
theorem default_lazy_singleton (s : RegState) :
    (mapLoadKV s.loggers defaultModuleName = none →
      Default s = Register "" none s ∧
      (Default s).1.level = LevelInfo ∧
      (Default s).1.addSource = true ∧
      (Default s).1.output = Writer.stdout ∧
      (Default s).1.contextExtractors = []) ∧
    (Default (Default s).2).1 = (Default s).1 := by
  cases hl : mapLoadKV s.loggers defaultModuleName with
  | some l =>
      have hdm : getModuleName defaultModuleName = defaultModuleName := by
        simp [getModuleName, defaultModuleName]
      constructor
      · intro h
        simp [hl] at h
      · simp [Default, GetLogger, hdm, hl]
  | none =>
      have hdm : getModuleName defaultModuleName = defaultModuleName := by
        simp [getModuleName, defaultModuleName]
      have hD : Default s = Register "" none s := by
        simp [Default, GetLogger, hdm, hl]
      have hempty : getModuleName "" = defaultModuleName := by
        simp [getModuleName]
      have hreg : Register "" none s =
          (newLogx s.nextId defaultModuleName none,
            { loggers := mapStoreKV s.loggers defaultModuleName
                (newLogx s.nextId defaultModuleName none),
              nextId := s.nextId + 1 }) := by
        simp [Register, registerLoad, registerResume, hempty, hl]
      refine ⟨fun _ => ⟨hD, ?_, ?_, ?_, ?_⟩, ?_⟩
      · simp [hD, hreg, newLogx, configLogger, defaultOptions]
      · simp [hD, hreg, newLogx, configLogger, defaultOptions]
      · simp [hD, hreg, newLogx, configLogger, defaultOptions]
      · simp [hD, hreg, newLogx, configLogger, defaultOptions]
      · rw [hD, hreg]
        simp [Default, GetLogger, hdm, mapLoadKV_mapStoreKV_self]

/-- C5 witness: the theorem applied at the empty registry, where no
"default" handle exists. -/
theorem default_lazy_singleton_witness :
    mapLoadKV initialRegState.loggers defaultModuleName = none ∧
    (Default initialRegState = Register "" none initialRegState ∧
     (Default initialRegState).1.level = LevelInfo ∧
     (Default initialRegState).1.addSource = true ∧
     (Default initialRegState).1.output = Writer.stdout ∧
     (Default initialRegState).1.contextExtractors = []) ∧
    (Default (Default initialRegState).2).1 = (Default initialRegState).1 :=
  ⟨rfl, (default_lazy_singleton initialRegState).1 rfl,
    (default_lazy_singleton initialRegState).2⟩

/-- C6: `GetLogger` is a pure read: it never changes the registry state; on
an unregistered name it returns no handle; and after `Register(m, o)` it
returns exactly the handle that `Register` returned, including after an
arbitrary further registration of another name. -/
theorem getLogger_pure_read (m m2 : String) (o o2 : Option Options)
    (s : RegState) (h : mapLoadKV s.loggers (getModuleName m) = none) :
    (GetLogger m2 s).2 = s ∧
    GetLogger m s = (none, s) ∧
    (GetLogger m (Register m o s).2).1 = some (Register m o s).1 ∧
    (GetLogger m (Register m2 o2 (Register m o s).2).2).1 =
      some (Register m o s).1 := by
  have hpure : (GetLogger m2 s).2 = s := by
    cases hl : mapLoadKV s.loggers (getModuleName m2) <;>
      simp [GetLogger, hl]
  have hreg : Register m o s =
      (newLogx s.nextId (getModuleName m) o,
        { loggers := mapStoreKV s.loggers (getModuleName m)
            (newLogx s.nextId (getModuleName m) o),
          nextId := s.nextId + 1 }) := by
    simp [Register, registerLoad, registerResume, h]
  have hload1 : mapLoadKV (Register m o s).2.loggers (getModuleName m) =
      some (Register m o s).1 := by
    rw [hreg]
    simp [mapLoadKV_mapStoreKV_self]
  have hget : (GetLogger m (Register m o s).2).1 = some (Register m o s).1 := by
    simp [GetLogger, hload1]
  refine ⟨hpure, by simp [GetLogger, h], hget, ?_⟩
  generalize hP : Register m o s = P at hload1 ⊢
  by_cases hmm : getModuleName m2 = getModuleName m
  · have hl2 : mapLoadKV P.2.loggers (getModuleName m2) = some P.1 := by
      rw [hmm]; exact hload1
    have hR2 : Register m2 o2 P.2 = (P.1, P.2) := by
      simp [Register, registerLoad, registerResume, hl2]
    rw [hR2]
    simp [GetLogger, hload1]
  · cases hl2 : mapLoadKV P.2.loggers (getModuleName m2) with
    | some l =>
        have hR2 : Register m2 o2 P.2 = (l, P.2) := by
          simp [Register, registerLoad, registerResume, hl2]
        rw [hR2]
        simp [GetLogger, hload1]
    | none =>
        have hR2 : (Register m2 o2 P.2).2.loggers =
            mapStoreKV P.2.loggers (getModuleName m2)
              (newLogx P.2.nextId (getModuleName m2) o2) := by
          simp [Register, registerLoad, registerResume, hl2]
        simp [GetLogger, hR2,
          mapLoadKV_mapStoreKV_ne _ _ _ _ (Ne.symm hmm), hload1]

/-- C6 witness: the theorem applied at the empty registry with names "x"
and "y" and nil options. -/
theorem getLogger_pure_read_witness :
    mapLoadKV initialRegState.loggers (getModuleName "x") = none ∧
    ((GetLogger "y" initialRegState).2 = initialRegState ∧
     GetLogger "x" initialRegState = (none, initialRegState) ∧
     (GetLogger "x" (Register "x" none initialRegState).2).1 =
       some (Register "x" none initialRegState).1 ∧
     (GetLogger "x" (Register "y" none
         (Register "x" none initialRegState).2).2).1 =
       some (Register "x" none initialRegState).1) :=
  ⟨rfl, getLogger_pure_read "x" "y" none none initialRegState rfl⟩

/-- C7: `NewOptions` starts from the fixed default (level Info, addSource
on, stdout output, empty extractor set) and applies the modifier functions
in the order given, so the last of two modifiers touching the same scalar
field wins. -/
theorem newOptions_defaults_and_order (fns : List OptionsFunc)
    (f : OptionsFunc) (a b : Int) (s1 s2 : Bool) (w1 w2 : Option Writer)
    (o : Options) :
    NewOptions [] = defaultOptions ∧
    defaultOptions.level = LevelInfo ∧
    defaultOptions.addSource = true ∧
    defaultOptions.output = Writer.stdout ∧
    defaultOptions.contextExtractors = [] ∧
    NewOptions (fns ++ [f]) = f (NewOptions fns) ∧
    WithLevel b (WithLevel a o) = WithLevel b o ∧
    WithAddSource s2 (WithAddSource s1 o) = WithAddSource s2 o ∧
    WithOutput w2 (WithOutput w1 o) = WithOutput w2 o := by
  refine ⟨rfl, rfl, rfl, rfl, rfl, ?_, rfl, rfl, ?_⟩
  · simp [NewOptions]
  · cases w1 <;> cases w2 <;> rfl

/-- C8: `WithContextExtractor(key, fn)` inserts or overwrites exactly the
entry for `key`: other keys are untouched, distinct keys accumulate, and a
second registration under the same key leaves only the later function. -/
theorem withContextExtractor_accumulates (o : Options) (k1 k2 k : String)
    (f1 f2 : ContextExtractor) (hne : k1 ≠ k2) (hk1 : k ≠ k1) :
    mapLoadKV (WithContextExtractor k1 f1 o).contextExtractors k1 = some f1 ∧
    mapLoadKV (WithContextExtractor k1 f1 o).contextExtractors k =
      mapLoadKV o.contextExtractors k ∧
    mapLoadKV (WithContextExtractor k2 f2
      (WithContextExtractor k1 f1 o)).contextExtractors k1 = some f1 ∧
    mapLoadKV (WithContextExtractor k2 f2
      (WithContextExtractor k1 f1 o)).contextExtractors k2 = some f2 ∧
    mapLoadKV (WithContextExtractor k1 f2
      (WithContextExtractor k1 f1 o)).contextExtractors k1 = some f2 := by
  refine ⟨?_, ?_, ?_, ?_, ?_⟩
  · simp [WithContextExtractor, mapLoadKV_mapStoreKV_self]
  · simp [WithContextExtractor, mapLoadKV_mapStoreKV_ne _ _ _ _ hk1]
  · simp [WithContextExtractor, mapLoadKV_mapStoreKV_ne _ _ _ _ hne,
      mapLoadKV_mapStoreKV_self]
  · simp [WithContextExtractor, mapLoadKV_mapStoreKV_self]
  · simp [WithContextExtractor, mapLoadKV_mapStoreKV_self]

/-- C8 witness: the theorem applied to the default options with keys "a",
"b", "c" and two concrete extractors. -/
theorem withContextExtractor_accumulates_witness :
    ("a" : String) ≠ "b" ∧ ("c" : String) ≠ "a" ∧
    (mapLoadKV (WithContextExtractor "a" (fun _ => "1")
        defaultOptions).contextExtractors "a" = some (fun _ => "1") ∧
     mapLoadKV (WithContextExtractor "a" (fun _ => "1")
        defaultOptions).contextExtractors "c" =
       mapLoadKV defaultOptions.contextExtractors "c" ∧
     mapLoadKV (WithContextExtractor "b" (fun _ => "2")
        (WithContextExtractor "a" (fun _ => "1")
          defaultOptions)).contextExtractors "a" = some (fun _ => "1") ∧
     mapLoadKV (WithContextExtractor "b" (fun _ => "2")
        (WithContextExtractor "a" (fun _ => "1")
          defaultOptions)).contextExtractors "b" = some (fun _ => "2") ∧
     mapLoadKV (WithContextExtractor "a" (fun _ => "2")
        (WithContextExtractor "a" (fun _ => "1")
          defaultOptions)).contextExtractors "a" = some (fun _ => "2")) :=
  ⟨by decide, by decide,
    withContextExtractor_accumulates defaultOptions "a" "b" "c"
      (fun _ => "1") (fun _ => "2") (by decide) (by decide)⟩

/-- C9: building options ending with `WithOutput(nil)` yields stdout as the
output sink, the logger constructed from those options writes to stdout,
and every record it emits is handed to a backend configured with stdout. -/
theorem withOutput_nil_stdout (fns : List OptionsFunc) (idv : Nat)
    (m : String) (ctx : Context) (msg : String) (args : List LogArg) :
    (NewOptions (fns ++ [WithOutput none])).output = Writer.stdout ∧
    (newLogx idv m (some (NewOptions (fns ++ [WithOutput none])))).output =
      Writer.stdout ∧
    ((newLogx idv m (some (NewOptions
        (fns ++ [WithOutput none])))).InfoContext ctx msg args).output =
      Writer.stdout := by
  have hout : (NewOptions (fns ++ [WithOutput none])).output = Writer.stdout := by
    simp [NewOptions, WithOutput]
  refine ⟨hout, ?_, ?_⟩
  · simp [newLogx, configLogger, hout]
  · simp [Logx.InfoContext, slogEmit, newLogx, configLogger, hout]

end logx
